import Mathlib

/-!
Verification development for the Markdown-like renderer of the
education-support web app (the `MarkdownRenderer` component and the
`getYouTubeEmbedUrl` helper).  The JavaScript source is shallowly embedded:
strings are Lean `String` (in this toolchain a wrapper around `List Char`),
JS regular-expression passes are embedded as explicit character-list
scanners with the exact matching semantics of the concrete regexes used by
the source, and the stateful row-grouping loop is an explicit fold.
-/

set_option maxRecDepth 40000

/-! ## Basic character / string helpers mirroring the JS primitives -/

abbrev Chars := List Char

/-- JS `.` in a regex without the `s` flag: any character except a line
terminator (the inputs here are ASCII, so only `\n` and `\r` matter). -/
def jsDot (c : Char) : Bool := !(c == '\n') && !(c == '\r')

def isNl (c : Char) : Bool := c == '\n' || c == '\r'

/-- The backtick character (code point 96). -/
def backtick : Char := Char.ofNat 96

/-- Concatenation of a list of strings (JS `array.join('')` / `+=` loops). -/
def concatStrs : List String → String
  | [] => ""
  | s :: rest => s ++ concatStrs rest

def trimChars (l : Chars) : Chars :=
  ((l.dropWhile Char.isWhitespace).reverse.dropWhile Char.isWhitespace).reverse

/-- JS `String.prototype.trim` (for the ASCII inputs of this app). -/
def jsTrim (s : String) : String := ⟨trimChars s.data⟩

def splitOnCharAux (sep : Char) : Chars → Chars → List Chars
  | acc, [] => [acc.reverse]
  | acc, c :: rest =>
    if c == sep then acc.reverse :: splitOnCharAux sep [] rest
    else splitOnCharAux sep (c :: acc) rest

/-- JS `String.prototype.split` with a one-character separator. -/
def jsSplit (sep : Char) (s : String) : List String :=
  (splitOnCharAux sep [] s.data).map (fun l => ⟨l⟩)

/-- JS `String.prototype.startsWith`. -/
def jsStartsWith (s pat : String) : Bool := pat.data.isPrefixOf s.data

/-- Is `pat` a contiguous subsequence of `l` (JS `String.prototype.includes`)? -/
def containsSeq (pat : Chars) : Chars → Bool
  | [] => pat.isEmpty
  | c :: rest => pat.isPrefixOf (c :: rest) || containsSeq pat rest

def strIncludes (s pat : String) : Bool := containsSeq pat.data s.data

/-- JS `String.prototype.toLowerCase` (ASCII). -/
def lowerStr (s : String) : String := ⟨s.data.map Char.toLower⟩

/-! ## Grouped ("timetable") table parsing, from the source

The row filter uses the regex `^\|[ -:]*\|[ -:]*\|` on the trimmed row.
Note that `[ -:]` is a character *range* from space (0x20) to colon (0x3A):
it contains the digits and a swath of punctuation, not just space, dash and
colon.  The embedding reproduces that range faithfully. -/

def isSepRangeChar (c : Char) : Bool := ' ' ≤ c && c ≤ ':'

/-- Consume `[ -:]*` then a `|`; return the remainder.  Deterministic
because `|` (0x7C) is not inside the range class. -/
def skipRange : Chars → Option Chars
  | [] => none
  | c :: rest => if c == '|' then some rest
      else if isSepRangeChar c then skipRange rest else none

/-- The guard `row.trim().match(/^\|[ -:]*\|[ -:]*\|/)` of the source. -/
def isSeparatorRow (row : String) : Bool :=
  match (jsTrim row).data with
  | '|' :: rest =>
    match skipRange rest with
    | some rest2 => (skipRange rest2).isSome
    | none => false
  | _ => false

/-- `row.trim().startsWith('|') && !row.trim().match(/^\|[ -:]*\|[ -:]*\|/)`. -/
def rowGuard (row : String) : Bool :=
  jsStartsWith (jsTrim row) "|" && !(isSeparatorRow row)

/-- `row.split('|').map(c => c.trim())` followed by dropping the first and
last tokens (`filter((c, i) => i > 0 && i < cells.length - 1)`). -/
def rowTokens (row : String) : List String :=
  (((jsSplit '|' row).map jsTrim).drop 1).dropLast

/-- The test `cell_Subject.match(/^[0-9.]*$/)` (empty string matches). -/
def isNumericish (s : String) : Bool := s.data.all (fun c => c.isDigit || c == '.')

/-- The four positional cells `(day, subject, detail/chapters, time)` of a
grouped-table row after padding with empty strings to length 4. -/
structure RowQuad where
  day : String
  subject : String
  detail : String
  time : String
deriving DecidableEq, Repr

/-- Tokens of a row, padded with `""` to the positional quadruple (the JS
`while (rawCells.length < 4) rawCells.push('')` plus `rawCells[i] || ''`). -/
def quadOf (row : String) : RowQuad :=
  let raw := rowTokens row
  ⟨raw.getD 0 "", raw.getD 1 "", raw.getD 2 "", raw.getD 3 ""⟩

/-- Trigger of the shift-correction heuristic, exactly as in the source:
`!cell_Day.startsWith('Day') && cell_Subject.match(/^[0-9.]*$/) &&
cell_Chapters && !cell_Time`. -/
def shiftTrigger (q : RowQuad) : Bool :=
  !(jsStartsWith q.day "Day") && isNumericish q.subject
    && !(q.detail == "") && (q.time == "")

/-- The shift correction: `time := detail; detail := subject; subject := ""`. -/
def shiftCorrect (q : RowQuad) : RowQuad :=
  if shiftTrigger q then ⟨q.day, "", q.subject, q.detail⟩ else q

/-- Group-key resolution: an explicit day starting with `"Day"` becomes the
new current key, otherwise the current key (JS `null` at the start, modelled
as `none`) is inherited. -/
def resolveDay (cur : Option String) (d : String) : Option String :=
  if jsStartsWith d "Day" then some d else cur

/-- JS coerces the day value to a property key: `null` becomes `"null"`.
The same coercion happens in the rendered cell text `${day}`. -/
def keyOf : Option String → String
  | none => "null"
  | some s => s

structure RowRecord where
  day : Option String
  subjectCells : List String
deriving DecidableEq, Repr

structure GroupInfo where
  count : Nat
  firstRowIndex : Nat
deriving DecidableEq, Repr

structure ParseState where
  tableData : List RowRecord
  rowGroups : String → Option GroupInfo
  currentDay : Option String

/-- The row record pushed for a valid line. -/
def mkRecord (cur : Option String) (row : String) : RowRecord :=
  let q := shiftCorrect (quadOf row)
  ⟨resolveDay cur q.day, [q.subject, q.detail, q.time]⟩

/-- A line is parsed iff it passes the row guard and yields at least three
tokens after dropping the outer-pipe artifacts. -/
def validRow (row : String) : Bool :=
  rowGuard row && decide (3 ≤ (rowTokens row).length)

/-- One iteration of the `contentBlock.trim().split('\n').forEach` loop. -/
def parseLine (st : ParseState) (row : String) : ParseState :=
  if validRow row then
    let r := mkRecord st.currentDay row
    let key := keyOf r.day
    ⟨st.tableData ++ [r],
     fun k =>
       if k = key then
         some (match st.rowGroups key with
               | some gi => ⟨gi.count + 1, gi.firstRowIndex⟩
               | none => ⟨1, st.tableData.length⟩)
       else st.rowGroups k,
     r.day⟩
  else st

/-- The whole grouped-table parse of a content block. -/
def parseGrouped (contentBlock : String) : ParseState :=
  (jsSplit '\n' (jsTrim contentBlock)).foldl parseLine ⟨[], fun _ => none, none⟩

/-! ## HTML emission, from the source -/

def tableOpen : String := "<table class=\"table table-bordered table-striped mt-3\"><thead>"

def thCell (h : String) : String :=
  "<th style=\"text-align: left; font-weight: bold; background-color: #f2f2f2;\">" ++ h ++ "</th>"

def tdCell (c : String) : String :=
  "<td style=\"text-align: left;\">" ++ c ++ "</td>"

def dayCell (count : Nat) (day : String) : String :=
  "<td rowspan=\"" ++ toString count ++ "\" style=\"text-align: left; font-weight: bold; background-color: #e9e9e9;\">" ++ day ++ "</td>"

/-- Body of the grouped table: the day cell is emitted only when the row
index equals the `firstRowIndex` of the group found under this row's key. -/
def renderGroupedBody (st : ParseState) : String :=
  concatStrs (st.tableData.enum.map (fun p =>
    let key := keyOf p.2.day
    let g := (st.rowGroups key).getD ⟨0, 0⟩
    "<tr>" ++ (if p.1 = g.firstRowIndex then dayCell g.count key else "")
      ++ concatStrs (p.2.subjectCells.map tdCell) ++ "</tr>"))

def renderHeaderRow (headers : List String) : String :=
  "<tr>" ++ concatStrs (headers.map thCell) ++ "</tr>"

def renderGroupedTable (headers : List String) (contentBlock : String) : String :=
  tableOpen ++ renderHeaderRow headers ++ "</thead><tbody>"
    ++ renderGroupedBody (parseGrouped contentBlock) ++ "</tbody></table>"

/-! ## Header parsing and classification -/

/-- The header-token separator filter `/^[-: ]+$/` (here the class really is
the three characters dash, colon, space). -/
def isHeaderSepToken (s : String) : Bool :=
  !(s.data.isEmpty) && s.data.all (fun c => c == '-' || c == ':' || c == ' ')

/-- `headerLine.split('|').map(h => h.trim()).filter(h => h && !h.match(/^[-: ]+$/))`. -/
def parseHeaders (headerLine : String) : List String :=
  ((jsSplit '|' headerLine).map jsTrim).filter
    (fun h => !(h == "") && !(isHeaderSepToken h))

/-- `headers.length >= 4 && headers[0].toLowerCase() === 'day'`. -/
def isTimetable (headers : List String) : Bool :=
  decide (4 ≤ headers.length) && (lowerStr (headers.headD "") == "day")

/-! ## Simple table rendering -/

/-- `row.split('|').map(c => c.trim()).filter(c => c)`: note this drops
every empty token, interior ones included. -/
def simpleRowCells (row : String) : List String :=
  ((jsSplit '|' row).map jsTrim).filter (fun c => !(c == ""))

def simpleRowHtml (row : String) : String :=
  if rowGuard row then
    let cells := simpleRowCells row
    if decide (0 < cells.length) then
      "<tr>" ++ concatStrs (cells.map tdCell) ++ "</tr>"
    else ""
  else ""

def renderSimpleTable (headers : List String) (contentBlock : String) : String :=
  tableOpen ++ renderHeaderRow headers ++ "</thead><tbody>"
    ++ concatStrs ((jsSplit '\n' (jsTrim contentBlock)).map simpleRowHtml)
    ++ "</tbody></table>"

/-- The replacement computed for one match of the table regex. -/
def renderTableMatch (headerLine contentBlock : String) : String :=
  let headers := parseHeaders headerLine
  if isTimetable headers then renderGroupedTable headers contentBlock
  else renderSimpleTable headers contentBlock

/-! ## The document-level substitution pipeline

Each JS `string.replace(regex, …)` with the `g` flag is embedded as a
left-to-right scanner: at each position, a matcher either yields the
replacement text and the remaining suffix after the match, or the scanner
keeps the character and moves on.  Replacements are never rescanned, as in
JS.  The fuel argument equals the length of the scanned text; it never runs
out because every match consumes at least one character. -/

def scanReplace (f : Chars → Option (Chars × Chars)) : Nat → Chars → Chars
  | 0, l => l
  | _ + 1, [] => []
  | fuel + 1, c :: rest =>
    match f (c :: rest) with
    | some (repl, after) => repl ++ scanReplace f fuel after
    | none => c :: scanReplace f fuel rest

def runScan (f : Chars → Option (Chars × Chars)) (l : Chars) : Chars :=
  scanReplace f l.length l

/-- Split at the first occurrence of `pat`: the lazy search of `[\s\S]*?`
up to a literal delimiter.  Returns the part before and the part after. -/
def splitOnce (pat : Chars) : Chars → Option (Chars × Chars)
  | [] => none
  | c :: rest =>
    if pat.isPrefixOf (c :: rest) then some ([], (c :: rest).drop pat.length)
    else (splitOnce pat rest).map (fun p => (c :: p.1, p.2))

def fenceMark : Chars := [backtick, backtick, backtick]

/-- The replacement template of the fenced-block pass, with the exact
whitespace of the source template literal. -/
def codeTemplate (cleaned : String) : String :=
  "\n            <div style=\"background-color: #f8f9fa; border: 1px solid #e9ecef; border-radius: 0.25rem; padding: 1rem; overflow-x: auto; margin-top: 1rem; margin-bottom: 1rem;\">\n                <pre style=\"margin: 0; white-space: pre-wrap; word-wrap: break-word;\"><code>"
    ++ cleaned ++ "</code></pre>\n            </div>\n        "

/-- Matcher for one match of `/```([\s\S]*?)```/gs`. -/
def fencedTry (l : Chars) : Option (Chars × Chars) :=
  if fenceMark.isPrefixOf l then
    match splitOnce fenceMark (l.drop 3) with
    | some (content, after) => some ((codeTemplate (jsTrim ⟨content⟩)).data, after)
    | none => none
  else none

/-- Lazy search for the closing `\|[\r\n]+` of the table-header group
`(\|.*?\|[\r\n]+)`: the first pipe whose successor is a line terminator,
reached over non-terminator characters only. -/
def findHeaderClose : Chars → Option (Chars × Chars)
  | [] => none
  | c :: rest =>
    if c == '|' && (match rest with | d :: _ => isNl d | [] => false) then
      some ([], rest)
    else if jsDot c then (findHeaderClose rest).map (fun p => (c :: p.1, p.2))
    else none

/-- The lookahead `(?=\n[ \t]*[^|]|$)`.  Since `[^|]` also matches spaces,
tabs and newlines, the first alternative succeeds exactly when the suffix
starts with a newline followed by any character other than a pipe. -/
def lookaheadOk : Chars → Bool
  | [] => true
  | c :: rest => c == '\n' && (match rest with | d :: _ => !(d == '|') | [] => false)

/-- Lazy extension of `([\s\S]*?)` until the lookahead holds. -/
def findGroup2 : Chars → (Chars × Chars)
  | [] => ([], [])
  | c :: rest =>
    if lookaheadOk (c :: rest) then ([], c :: rest)
    else
      let p := findGroup2 rest
      (c :: p.1, p.2)

/-- Matcher for one match of the table regex
`/(\|.*?\|[\r\n]+)([\s\S]*?)(?=\n[ \t]*[^|]|$)/g`. -/
def tableTry (l : Chars) : Option (Chars × Chars) :=
  match l with
  | '|' :: rest =>
    match findHeaderClose rest with
    | some (mid, afterPipe) =>
      let nls := afterPipe.takeWhile isNl
      let afterNl := afterPipe.dropWhile isNl
      let g := findGroup2 afterNl
      some ((renderTableMatch ⟨'|' :: (mid ++ '|' :: nls)⟩ ⟨g.1⟩).data, g.2)
    | none => none
  | _ => none

/-- Matcher for `/marker(.*)/g`-style passes (`## `, `# `): the marker
anywhere, then a greedy run of non-terminator characters. -/
def markLineTry (marker openT closeT : Chars) (l : Chars) : Option (Chars × Chars) :=
  if marker.isPrefixOf l then
    let after0 := l.drop marker.length
    some (openT ++ after0.takeWhile jsDot ++ closeT, after0.dropWhile jsDot)
  else none

def h2Try : Chars → Option (Chars × Chars) :=
  markLineTry "## ".data "<h4>".data "</h4>".data

def h1Try : Chars → Option (Chars × Chars) :=
  markLineTry "# ".data "<h3>".data "</h3>".data

/-- Lazy run of characters satisfying `ok`, up to the literal `stop`. -/
def findLazy (stop : Chars) (ok : Char → Bool) : Chars → Option (Chars × Chars)
  | [] => none
  | c :: rest =>
    if stop.isPrefixOf (c :: rest) then some ([], (c :: rest).drop stop.length)
    else if ok c then (findLazy stop ok rest).map (fun p => (c :: p.1, p.2))
    else none

/-- Matcher for `/\*\*(.*?)\*\*/g`. -/
def boldTry (l : Chars) : Option (Chars × Chars) :=
  if ['*', '*'].isPrefixOf l then
    (findLazy ['*', '*'] jsDot (l.drop 2)).map
      (fun p => ("<strong>".data ++ p.1 ++ "</strong>".data, p.2))
  else none

/-- Matcher for `/\*(.*?)\*/g`. -/
def italTry (l : Chars) : Option (Chars × Chars) :=
  match l with
  | '*' :: rest =>
    (findLazy ['*'] jsDot rest).map
      (fun p => ("<em>".data ++ p.1 ++ "</em>".data, p.2))
  | _ => none

/-- Matcher for `/---/g`. -/
def hrTry (l : Chars) : Option (Chars × Chars) :=
  if ['-', '-', '-'].isPrefixOf l then some ("<hr>".data, l.drop 3) else none

/-- The `/^\* (.*)/gm` pass: `^` (multiline) matches at the start of the
input and after every line terminator, so the scanner threads an
at-line-start flag. -/
def listLineScan : Nat → Bool → Chars → Chars
  | 0, _, l => l
  | _ + 1, _, [] => []
  | fuel + 1, atStart, c :: rest =>
    if atStart && c == '*' && (match rest with | ' ' :: _ => true | _ => false) then
      "<li>".data ++ (rest.drop 1).takeWhile jsDot ++ "</li>".data
        ++ listLineScan fuel false ((rest.drop 1).dropWhile jsDot)
    else c :: listLineScan fuel (isNl c) rest

def listLinePass (l : Chars) : Chars := listLineScan l.length true l

/-- Matcher for `/(<li>.*?<\/li>)/gs` with replacement `<ul>$1</ul>`. -/
def liWrapTry (l : Chars) : Option (Chars × Chars) :=
  if "<li>".data.isPrefixOf l then
    (findLazy "</li>".data (fun _ => true) (l.drop 4)).map
      (fun p => ("<ul><li>".data ++ p.1 ++ "</li></ul>".data, p.2))
  else none

/-- Matcher for `/<\/ul><ul>/gs` with empty replacement. -/
def ulMergeTry (l : Chars) : Option (Chars × Chars) :=
  if "</ul><ul>".data.isPrefixOf l then some ([], l.drop 9) else none

/-- Matcher for `/\n\n/g`. -/
def ppTry (l : Chars) : Option (Chars × Chars) :=
  match l with
  | '\n' :: '\n' :: rest => some ("<p></p>".data, rest)
  | _ => none

/-- Matcher for `/\n/g`. -/
def brTry (l : Chars) : Option (Chars × Chars) :=
  match l with
  | '\n' :: rest => some ("<br>".data, rest)
  | _ => none

/-- The whole `MarkdownRenderer` pipeline on a string input, pass for pass
in source order. -/
def renderMarkdown (content : String) : String :=
  let l1 := runScan fencedTry content.data
  let l2 := runScan tableTry l1
  let l3 := runScan h2Try l2
  let l4 := runScan h1Try l3
  let l5 := runScan boldTry l4
  let l6 := runScan italTry l5
  let l7 := runScan hrTry l6
  let l8 := listLinePass l7
  let l9 := if containsSeq "<li>".data l8
            then runScan ulMergeTry (runScan liWrapTry l8) else l8
  let l10 := runScan ppTry l9
  ⟨runScan brTry l10⟩

/-! ## The video-URL mapper `getYouTubeEmbedUrl`

`new URL`, `searchParams` and `URLSearchParams` are browser built-ins, not
repository code; they are modelled here by a simplified WHATWG-style parser
handling `scheme://host/path?query` forms, which is the shape of every URL
the mapper distinguishes.  A parse failure of `new URL` (the JS
`TypeError`) is modelled as `none`, and the `try`/`catch` of the source
becomes the `match` of `getYouTubeEmbedUrl`. -/

structure URLObj where
  hostname : String
  pathname : String
  searchPairs : List (String × String)
deriving DecidableEq, Repr

def isSchemeChar (c : Char) : Bool :=
  c.isAlphanum || c == '+' || c == '-' || c == '.'

def isAuthorityEnd (c : Char) : Bool := c == '/' || c == '?' || c == '#'

def parseQueryPair (seg : Chars) : String × String :=
  match splitOnce ['='] seg with
  | some (k, v) => (⟨k⟩, ⟨v⟩)
  | none => (⟨seg⟩, "")

def parseQuery (q : Chars) : List (String × String) :=
  ((splitOnCharAux '&' [] q).filter (fun seg => !seg.isEmpty)).map parseQueryPair

/-- Simplified model of `new URL(s)`: `none` models the thrown TypeError. -/
def parseURL (s : String) : Option URLObj :=
  let l := s.data
  let scheme := l.takeWhile isSchemeChar
  let rest0 := l.dropWhile isSchemeChar
  match scheme, rest0 with
  | [], _ => none
  | s0 :: _, ':' :: rest1 =>
    if !s0.isAlpha then none
    else
      match rest1 with
      | '/' :: '/' :: rest2 =>
        let auth := rest2.takeWhile (fun c => !(isAuthorityEnd c))
        let tail0 := rest2.dropWhile (fun c => !(isAuthorityEnd c))
        if auth.isEmpty then none
        else
          let host := (auth.takeWhile (fun c => !(c == ':'))).map Char.toLower
          let path := tail0.takeWhile (fun c => !(c == '?') && !(c == '#'))
          let tail1 := tail0.dropWhile (fun c => !(c == '?') && !(c == '#'))
          let query := match tail1 with
            | '?' :: qrest => qrest.takeWhile (fun c => !(c == '#'))
            | _ => []
          some ⟨⟨host⟩, ⟨path⟩, parseQuery query⟩
      | _ =>
        some ⟨"", ⟨rest1.takeWhile (fun c => !(c == '?') && !(c == '#'))⟩,
              parseQuery (match rest1.dropWhile (fun c => !(c == '?') && !(c == '#')) with
                          | '?' :: qrest => qrest.takeWhile (fun c => !(c == '#'))
                          | _ => [])⟩
  | _, _ => none

def hasParam (ps : List (String × String)) (k : String) : Bool :=
  ps.any (fun p => p.1 == k)

def getParam (ps : List (String × String)) (k : String) : String :=
  ((ps.find? (fun p => p.1 == k)).map Prod.snd).getD ""

def defaultEmbedUrl : String := "https://www.youtube.com/embed/dQw4w9WgXcQ"

/-- The `getYouTubeEmbedUrl` helper: watch-link `v` parameter, short-link
path segment, or the fixed fallback on any parse failure. -/
def getYouTubeEmbedUrl (url : String) : String :=
  match parseURL url with
  | some u =>
    if strIncludes u.hostname "youtube.com" && hasParam u.searchPairs "v" then
      "https://www.youtube.com/embed/" ++ getParam u.searchPairs "v"
    else if u.hostname == "youtu.be" then
      "https://www.youtube.com/embed/" ++ ⟨u.pathname.data.drop 1⟩
    else defaultEmbedUrl
  | none => defaultEmbedUrl

/-! ## Specification-side definitions

These definitions follow the words of the specification and of the claims
(not the source); they exist to be compared against the source-derived
definitions above. -/

/-- Number of parsed rows whose resolved group key equals `k`. -/
def keyCount (k : String) (td : List RowRecord) : Nat :=
  (td.filter (fun r => keyOf r.day == k)).length

/-- Index of the first parsed row whose resolved group key equals `k`. -/
def firstKeyIdx (k : String) : List RowRecord → Option Nat
  | [] => none
  | r :: rest => if keyOf r.day == k then some 0 else (firstKeyIdx k rest).map (· + 1)

/-- The group entry the source actually maintains for key `k`: the total
number of rows carrying `k` anywhere in the table (contiguous or not)
together with the index of the first such row. -/
def groupSpec (td : List RowRecord) (k : String) : Option GroupInfo :=
  match firstKeyIdx k td with
  | none => none
  | some i => some ⟨keyCount k td, i⟩

/-- Invariant relating the group map of a parse state to its row list. -/
def GoodState (st : ParseState) : Prop :=
  ∀ k, st.rowGroups k = groupSpec st.tableData k

/-- Maximal contiguous runs of equal-key rows, in order.  Follows the words
of the claim that only contiguous runs are merged. -/
def runs : List RowRecord → List (List RowRecord)
  | [] => []
  | r :: rest =>
    match runs rest with
    | [] => [[r]]
    | g :: gs =>
      match g with
      | s :: _ => if keyOf r.day == keyOf s.day then (r :: g) :: gs else [r] :: g :: gs
      | [] => [r] :: gs

/-- Body of one contiguous run under the claimed semantics: a leading cell
on the first row of the run only, spanning exactly the run length. -/
def runBody (g : List RowRecord) : String :=
  concatStrs (g.enum.map (fun p =>
    "<tr>" ++ (if p.1 = 0 then dayCell g.length (keyOf ((g.headD ⟨none, []⟩).day)) else "")
      ++ concatStrs (p.2.subjectCells.map tdCell) ++ "</tr>"))

/-- The grouped-table body the claim describes: every contiguous run is an
independent group with its own row-spanning leading cell. -/
def specContiguousBody (td : List RowRecord) : String :=
  concatStrs ((runs td).map runBody)

/-! ## Concrete test blocks used by the claim theorems -/

/-- Three rows whose first key recurs non-contiguously. -/
def c1block : String :=
  "| Day 1 | Math | 1 | 9am |\n| Day 2 | Sci | 2 | 10am |\n| Day 1 | Eng | 3 | 11am |"

/-- The two carry-forward rows of the claimed test case. -/
def c4block : String :=
  "| Day 1 | Math | 1-2 | 9am |\n| | Science | 3 | 10am |"

/-- Two leading rows without an explicit "Day" key, then an explicit one. -/
def c10block : String :=
  "| Mon | Math | 1 | 9am |\n| Tue | Sci | 2 | 10am |\n| Day 1 | Eng | 3 | 11am |"

/-! ## Helper lemmas -/

theorem parseLine_of_valid (st : ParseState) (row : String) (h : validRow row = true) :
    parseLine st row =
      ⟨st.tableData ++ [mkRecord st.currentDay row],
       fun k =>
         if k = keyOf (mkRecord st.currentDay row).day then
           some (match st.rowGroups (keyOf (mkRecord st.currentDay row).day) with
                 | some gi => ⟨gi.count + 1, gi.firstRowIndex⟩
                 | none => ⟨1, st.tableData.length⟩)
         else st.rowGroups k,
       (mkRecord st.currentDay row).day⟩ := by
  simp [parseLine, h]

theorem parseLine_of_invalid (st : ParseState) (row : String) (h : validRow row = false) :
    parseLine st row = st := by
  simp [parseLine, h]

theorem foldl_parseLine_len (lines : List String) (st : ParseState) :
    ((lines.foldl parseLine st).tableData).length
      = st.tableData.length + (lines.filter validRow).length := by
  induction lines generalizing st with
  | nil => simp
  | cons a rest ih =>
    rw [List.foldl_cons, ih, List.filter_cons]
    cases h : validRow a with
    | true =>
      rw [parseLine_of_valid st a h]
      simp
      omega
    | false =>
      rw [parseLine_of_invalid st a h]
      simp

theorem firstKeyIdx_append_one (k : String) (td : List RowRecord) (r : RowRecord) :
    firstKeyIdx k (td ++ [r]) =
      match firstKeyIdx k td with
      | some i => some i
      | none => if keyOf r.day == k then some td.length else none := by
  induction td with
  | nil =>
    simp only [List.nil_append, firstKeyIdx, List.length_nil]
    cases h : (keyOf r.day == k) <;> simp [h]
  | cons a rest ih =>
    cases h : (keyOf a.day == k) with
    | true => simp [firstKeyIdx, h]
    | false =>
      simp only [List.cons_append, firstKeyIdx, h, Bool.false_eq_true, if_false,
        List.length_cons, List.append_eq]
      rw [ih]
      cases hf : firstKeyIdx k rest with
      | some i => simp
      | none =>
        cases hr : (keyOf r.day == k) <;> simp [hr]

theorem keyCount_append_one (k : String) (td : List RowRecord) (r : RowRecord) :
    keyCount k (td ++ [r]) = keyCount k td + (if keyOf r.day == k then 1 else 0) := by
  simp only [keyCount, List.filter_append, List.length_append]
  cases h : (keyOf r.day == k) <;> simp [List.filter, h]

theorem keyCount_of_firstKeyIdx_none (k : String) (td : List RowRecord)
    (h : firstKeyIdx k td = none) : keyCount k td = 0 := by
  induction td with
  | nil => rfl
  | cons a rest ih =>
    cases ha : (keyOf a.day == k) with
    | true => simp [firstKeyIdx, ha] at h
    | false =>
      simp only [firstKeyIdx, ha, Bool.false_eq_true, if_false, Option.map_eq_none'] at h
      simp only [keyCount, List.filter, ha]
      exact ih h

theorem parseLine_good (st : ParseState) (row : String) (h : GoodState st) :
    GoodState (parseLine st row) := by
  cases hv : validRow row with
  | false => rw [parseLine_of_invalid st row hv]; exact h
  | true =>
    rw [parseLine_of_valid st row hv]
    intro k
    simp only
    by_cases hk : k = keyOf (mkRecord st.currentDay row).day
    · subst hk
      rw [if_pos rfl, h]
      simp only [groupSpec, firstKeyIdx_append_one, keyCount_append_one, beq_self_eq_true,
        if_pos]
      cases hf : firstKeyIdx (keyOf (mkRecord st.currentDay row).day) st.tableData with
      | some i => simp
      | none =>
        simp [keyCount_of_firstKeyIdx_none _ _ hf]
    · rw [if_neg hk, h]
      have hne : (keyOf (mkRecord st.currentDay row).day == k) = false := by
        rw [beq_eq_false_iff_ne]
        exact fun he => hk he.symm
      simp only [groupSpec, firstKeyIdx_append_one, keyCount_append_one, hne]
      cases hf : firstKeyIdx k st.tableData with
      | some i => simp
      | none => simp

theorem foldl_parseLine_good (lines : List String) (st : ParseState) (h : GoodState st) :
    GoodState (lines.foldl parseLine st) := by
  induction lines generalizing st with
  | nil => exact h
  | cons a rest ih => exact ih _ (parseLine_good _ _ h)

theorem concatStrs_map_filter (p : String → Bool) (f g : String → String)
    (l : List String) (h0 : ∀ x, p x = false → f x = "")
    (h1 : ∀ x, p x = true → f x = g x) :
    concatStrs (l.map f) = concatStrs ((l.filter p).map g) := by
  induction l with
  | nil => rfl
  | cons a rest ih =>
    rw [List.map_cons, List.filter_cons]
    cases h : p a with
    | true =>
      rw [if_pos (by simp [h]), List.map_cons]
      show f a ++ concatStrs (rest.map f) = g a ++ concatStrs ((rest.filter p).map g)
      rw [h1 a h, ih]
    | false =>
      rw [if_neg (by simp [h])]
      show f a ++ concatStrs (rest.map f) = concatStrs ((rest.filter p).map g)
      rw [h0 a h, ih]
      show ("" : String) ++ _ = _
      simp

theorem isTimetable_iff (hs : List String) :
    isTimetable hs = true ↔ (4 ≤ hs.length ∧ lowerStr (hs.headD "") = "day") := by
  constructor
  · intro h
    simp only [isTimetable, Bool.and_eq_true, decide_eq_true_eq] at h
    exact ⟨h.1, beq_iff_eq.mp h.2⟩
  · intro h
    simp only [isTimetable, Bool.and_eq_true, decide_eq_true_eq]
    exact ⟨h.1, beq_iff_eq.mpr h.2⟩

/-! ## Claim theorems -/

/-- C1, counterexample.  In the content block `c1block` the key "Day 1"
recurs in a second, non-adjacent run (rows 0 and 2, with a "Day 2" row in
between).  The renderer does NOT produce two independent groups: its group
entry for "Day 1" has count 2 (the later run is counted into the earlier
group) and firstRowIndex 0, so a single leading cell with rowspan 2 is
emitted at row 0 and row 2 gets no leading cell at all — unlike the body
required by the claim (`specContiguousBody`), in which each contiguous run
is its own group with its own rowspan-1 leading cell. -/
theorem c1_noncontiguous_counterexample :
    (parseGrouped c1block).rowGroups "Day 1" = some ⟨2, 0⟩ ∧
    renderGroupedBody (parseGrouped c1block)
      ≠ specContiguousBody (parseGrouped c1block).tableData :=
  ⟨by decide, by decide⟩

/-- C1, amended.  The group map the renderer maintains for any content
block merges ALL rows with the same resolved key, contiguous or not: the
entry under key `k` is exactly the total number of rows carrying `k`
together with the index of the first such row (`groupSpec`), so the single
leading cell (emitted where the row index equals `firstRowIndex`) spans the
total count, and rows of a later run of the same key emit no leading
cell. -/
theorem c1_group_merging_amended (cb k : String) :
    (parseGrouped cb).rowGroups k = groupSpec (parseGrouped cb).tableData k :=
  foldl_parseLine_good _ _ (fun _ => rfl) k

/-- C3, counterexample.  The claim states the shift correction fires
precisely when `day` is empty (so a row with a non-empty day not starting
with "Day" keeps its cells unchanged).  The source instead tests
`!cell_Day.startsWith('Day')`: the row `("Monday", "3", "Chapter 1-3", "")`
has a non-empty day, yet its cells are reassigned. -/
theorem c3_counterexample :
    shiftCorrect ⟨"Monday", "3", "Chapter 1-3", ""⟩ ≠ ⟨"Monday", "3", "Chapter 1-3", ""⟩ :=
  by decide

/-- C3, amended.  The shift correction `time := detail, detail := subject,
subject := ""` is applied precisely when `day` does NOT start with the
literal "Day" (rather than: when `day` is empty), `subject` is digits and
periods only (including empty), `detail` is non-empty and `time` is empty;
a triggered row really changes, and a non-triggered row keeps its four
cells positionally unchanged. -/
theorem c3_shift_amended :
    (∀ q : RowQuad, shiftTrigger q = true ↔
      (jsStartsWith q.day "Day" = false ∧ isNumericish q.subject = true
        ∧ q.detail ≠ "" ∧ q.time = "")) ∧
    (∀ q : RowQuad, shiftTrigger q = true →
      shiftCorrect q = ⟨q.day, "", q.subject, q.detail⟩ ∧ shiftCorrect q ≠ q) ∧
    (∀ q : RowQuad, shiftTrigger q = false → shiftCorrect q = q) := by
  have hiff : ∀ q : RowQuad, shiftTrigger q = true ↔
      (jsStartsWith q.day "Day" = false ∧ isNumericish q.subject = true
        ∧ q.detail ≠ "" ∧ q.time = "") := by
    intro q
    simp only [shiftTrigger, Bool.and_eq_true, Bool.not_eq_true']
    constructor
    · intro h
      exact ⟨h.1.1.1, h.1.1.2, beq_eq_false_iff_ne.mp h.1.2, beq_iff_eq.mp h.2⟩
    · intro h
      exact ⟨⟨⟨h.1, h.2.1⟩, beq_eq_false_iff_ne.mpr h.2.2.1⟩, beq_iff_eq.mpr h.2.2.2⟩
  refine ⟨hiff, ?_, ?_⟩
  · intro q h
    have hc : shiftCorrect q = ⟨q.day, "", q.subject, q.detail⟩ := by
      simp [shiftCorrect, h]
    refine ⟨hc, ?_⟩
    intro heq
    rw [hc] at heq
    have hdt : q.detail = q.time := congrArg RowQuad.time heq
    have h' := (hiff q).mp h
    exact h'.2.2.1 (hdt.trans h'.2.2.2)
  · intro q h
    simp [shiftCorrect, h]

/-- Witness for the amended C3 theorem, at the concrete row of the claim:
tokens `("", "3", "Chapter 1-3", "")` are reassigned so that the rendered
cells `(subject, detail, time)` are `("", "3", "Chapter 1-3")`. -/
theorem c3_shift_amended_witness :
    shiftCorrect ⟨"", "3", "Chapter 1-3", ""⟩ = ⟨"", "", "3", "Chapter 1-3"⟩ :=
  (c3_shift_amended.2.1 ⟨"", "3", "Chapter 1-3", ""⟩ (by decide)).1

/-- C4: a row whose post-correction day starts with "Day" sets the current
group key; a row whose day does not inherits the current key unchanged; and
the concrete pair of rows `("Day 1", "Math", "1-2", "9am")`,
`("", "Science", "3", "10am")` parses into one group keyed "Day 1" whose
leading cell is emitted exactly once, on the first row, with rowspan 2. -/
theorem c4_carry_forward :
    (∀ (cur : Option String) (d : String), jsStartsWith d "Day" = true →
        resolveDay cur d = some d) ∧
    (∀ (cur : Option String) (d : String), jsStartsWith d "Day" = false →
        resolveDay cur d = cur) ∧
    (parseGrouped c4block).tableData
      = [⟨some "Day 1", ["Math", "1-2", "9am"]⟩,
         ⟨some "Day 1", ["Science", "3", "10am"]⟩] ∧
    (parseGrouped c4block).rowGroups "Day 1" = some ⟨2, 0⟩ ∧
    renderGroupedBody (parseGrouped c4block)
      = "<tr><td rowspan=\"2\" style=\"text-align: left; font-weight: bold; background-color: #e9e9e9;\">Day 1</td><td style=\"text-align: left;\">Math</td><td style=\"text-align: left;\">1-2</td><td style=\"text-align: left;\">9am</td></tr><tr><td style=\"text-align: left;\">Science</td><td style=\"text-align: left;\">3</td><td style=\"text-align: left;\">10am</td></tr>" := by
  refine ⟨?_, ?_, by decide, by decide, by decide⟩
  · intro cur d h
    simp [resolveDay, h]
  · intro cur d h
    simp [resolveDay, h]

/-- Witness for C4 at concrete keys: an explicit "Day 2" day sets the key,
and an empty day inherits the previously set key. -/
theorem c4_carry_forward_witness :
    resolveDay none "Day 2" = some "Day 2" ∧
    resolveDay (some "Day 1") "" = some "Day 1" :=
  ⟨c4_carry_forward.1 none "Day 2" (by decide),
   c4_carry_forward.2.1 (some "Day 1") "" (by decide)⟩

/-- C5: a detected table is rendered in grouped (row-spanning) mode iff its
filtered header sequence has at least 4 entries and its first header,
lowercased, is "day"; otherwise it is rendered by the simple renderer. -/
theorem c5_classification (hl cb : String) :
    renderTableMatch hl cb =
      if 4 ≤ (parseHeaders hl).length ∧ lowerStr ((parseHeaders hl).headD "") = "day"
      then renderGroupedTable (parseHeaders hl) cb
      else renderSimpleTable (parseHeaders hl) cb := by
  show (if isTimetable (parseHeaders hl) then renderGroupedTable (parseHeaders hl) cb
        else renderSimpleTable (parseHeaders hl) cb) = _
  by_cases h : 4 ≤ (parseHeaders hl).length ∧ lowerStr ((parseHeaders hl).headD "") = "day"
  · rw [if_pos h, if_pos ((isTimetable_iff _).mpr h)]
  · rw [if_neg h, if_neg (fun hh => h ((isTimetable_iff _).mp hh))]

/-- C2, behaviour at the failing input.  Although the fenced-block pass
runs first, it splices the trimmed interior back into the working string,
where every later pass still operates on it: for the input consisting of a
single terminated fence around `**b**`, the bold pass rewrites the interior
to `<strong>b</strong>` inside the emitted `<code>` element, and the
interior `**b**` does not survive verbatim anywhere in the output. -/
theorem c2_fenced_interior_rewritten :
    renderMarkdown "```**b**```"
      = "<br>            <div style=\"background-color: #f8f9fa; border: 1px solid #e9ecef; border-radius: 0.25rem; padding: 1rem; overflow-x: auto; margin-top: 1rem; margin-bottom: 1rem;\"><br>                <pre style=\"margin: 0; white-space: pre-wrap; word-wrap: break-word;\"><code><strong>b</strong></code></pre><br>            </div><br>        "
    ∧ strIncludes (renderMarkdown "```**b**```") "<code><strong>b</strong></code>" = true
    ∧ strIncludes (renderMarkdown "```**b**```") "**b**" = false :=
  ⟨by decide, by decide, by decide⟩

/-- C6, behaviour at the failing input.  The list pass leaves the original
newline between the two generated items, the wrap pass encloses each item
in its own container, and the merge substitution looks for the two closing
and opening container tags directly adjacent — which they never are, the
newline sits between them.  So `"* a\n* b"` renders as two adjacent
one-item containers separated by a line break, not as one container with
two items. -/
theorem c6_list_not_merged :
    renderMarkdown "* a\n* b" = "<ul><li>a</li></ul><br><ul><li>b</li></ul>"
    ∧ strIncludes (renderMarkdown "* a\n* b") "</ul><br><ul>" = true :=
  ⟨by decide, by decide⟩

/-- C7, counterexample.  The simple renderer filters out EVERY empty token
(`filter(c => c)`), not only the leading and trailing ones: the row
`"| a |  | b |"` yields the two cells `["a", "b"]`, not the three cells
`["a", "", "b"]` that dropping only the outer artifacts (`rowTokens`)
would preserve. -/
theorem c7_counterexample :
    simpleRowCells "| a |  | b |" = ["a", "b"] ∧
    simpleRowCells "| a |  | b |" ≠ rowTokens "| a |  | b |" :=
  ⟨by decide, by decide⟩

/-- C7, amended.  For every simple-mode table: each content row is split on
pipes with tokens trimmed and ALL empty tokens are dropped (interior empty
cells are removed too); exactly the rows passing the row guard and
supplying at least one non-empty token emit one body row each, with one
cell per remaining token, and the header row has one header cell per
filtered header label. -/
theorem c7_simple_amended (headers : List String) (cb : String) :
    renderSimpleTable headers cb
      = tableOpen ++ renderHeaderRow headers ++ "</thead><tbody>"
        ++ concatStrs (((jsSplit '\n' (jsTrim cb)).filter
              (fun r => rowGuard r && decide (0 < (simpleRowCells r).length))).map
            (fun r => "<tr>" ++ concatStrs ((simpleRowCells r).map tdCell) ++ "</tr>"))
        ++ "</tbody></table>" := by
  unfold renderSimpleTable
  rw [concatStrs_map_filter
    (fun r => rowGuard r && decide (0 < (simpleRowCells r).length)) simpleRowHtml
    (fun r => "<tr>" ++ concatStrs ((simpleRowCells r).map tdCell) ++ "</tr>")
    (jsSplit '\n' (jsTrim cb)) ?_ ?_]
  · intro x hx
    have hx' : (rowGuard x && decide (0 < (simpleRowCells x).length)) = false := hx
    cases hg : rowGuard x with
    | false => simp [simpleRowHtml, hg]
    | true =>
      cases hl : decide (0 < (simpleRowCells x).length) with
      | false => simp [simpleRowHtml, hg, hl]
      | true => rw [hg, hl] at hx'; simp at hx'
  · intro x hx
    have hx' : (rowGuard x && decide (0 < (simpleRowCells x).length)) = true := hx
    rw [Bool.and_eq_true] at hx'
    simp [simpleRowHtml, hx'.1, hx'.2]

/-- C8: a grouped-table content line yielding fewer than 3 tokens after
dropping the outer-pipe artifacts is skipped silently, leaving the parse
state unchanged; and the number of row records emitted for any content
block equals exactly the number of its valid lines (pipe-starting,
not matching the separator pattern, with at least 3 tokens). -/
theorem c8_row_conservation :
    (∀ (st : ParseState) (row : String), (rowTokens row).length < 3 →
        parseLine st row = st) ∧
    (∀ cb : String, (parseGrouped cb).tableData.length
        = ((jsSplit '\n' (jsTrim cb)).filter validRow).length) := by
  constructor
  · intro st row h
    apply parseLine_of_invalid
    unfold validRow
    rw [decide_eq_false (Nat.not_le.mpr h)]
    simp
  · intro cb
    have h := foldl_parseLine_len (jsSplit '\n' (jsTrim cb)) ⟨[], fun _ => none, none⟩
    simpa [parseGrouped] using h

/-- Witness for C8: the two-token row `"| a | b |"` is dropped silently,
and the conservation count holds on a block containing it. -/
theorem c8_row_conservation_witness :
    parseLine ⟨[], fun _ => none, none⟩ "| a | b |" = ⟨[], fun _ => none, none⟩ ∧
    (parseGrouped "| a | b |").tableData.length
      = ((jsSplit '\n' (jsTrim "| a | b |")).filter validRow).length :=
  ⟨c8_row_conservation.1 _ _ (by decide), c8_row_conservation.2 "| a | b |"⟩

/-- C9: the video-URL mapper is a total function; whenever the URL fails to
parse it returns the fixed default embeddable URL, the non-video URL
"https://example.com" maps to that default, and watch links and short
links map to the embeddable URL built from the extracted identifier. -/
theorem c9_embed_mapper :
    (∀ s : String, parseURL s = none → getYouTubeEmbedUrl s = defaultEmbedUrl) ∧
    getYouTubeEmbedUrl "https://example.com" = defaultEmbedUrl ∧
    getYouTubeEmbedUrl "https://www.youtube.com/watch?v=abc123"
      = "https://www.youtube.com/embed/abc123" ∧
    getYouTubeEmbedUrl "https://youtu.be/xYz9" = "https://www.youtube.com/embed/xYz9" := by
  refine ⟨?_, by decide, by decide, by decide⟩
  intro s h
  simp [getYouTubeEmbedUrl, h]

/-- Witness for C9 at a concrete unparseable input. -/
theorem c9_embed_mapper_witness :
    parseURL "notaurl" = none ∧ getYouTubeEmbedUrl "notaurl" = defaultEmbedUrl :=
  ⟨by decide, c9_embed_mapper.1 "notaurl" (by decide)⟩

/-- C10: when the first valid rows of a grouped table carry no explicit
"Day" key, they are still emitted, under the initial null carry-forward key
(JS `null`, coerced to the property key and cell text "null"): the leading
run of such rows forms one group whose leading cell carries the literal
text "null" and spans exactly that run, as shown on a block with two
keyless leading rows followed by an explicit "Day 1" row. -/
theorem c10_null_group :
    keyOf none = "null" ∧
    (parseGrouped c10block).tableData
      = [⟨none, ["Math", "1", "9am"]⟩, ⟨none, ["Sci", "2", "10am"]⟩,
         ⟨some "Day 1", ["Eng", "3", "11am"]⟩] ∧
    (parseGrouped c10block).rowGroups "null" = some ⟨2, 0⟩ ∧
    renderGroupedBody (parseGrouped c10block)
      = "<tr><td rowspan=\"2\" style=\"text-align: left; font-weight: bold; background-color: #e9e9e9;\">null</td><td style=\"text-align: left;\">Math</td><td style=\"text-align: left;\">1</td><td style=\"text-align: left;\">9am</td></tr><tr><td style=\"text-align: left;\">Sci</td><td style=\"text-align: left;\">2</td><td style=\"text-align: left;\">10am</td></tr><tr><td rowspan=\"1\" style=\"text-align: left; font-weight: bold; background-color: #e9e9e9;\">Day 1</td><td style=\"text-align: left;\">Eng</td><td style=\"text-align: left;\">3</td><td style=\"text-align: left;\">11am</td></tr>" :=
  ⟨rfl, by decide, by decide, by decide⟩
